import Mathlib

/-!
Verification development for the job-goblin backend (`src/backend/main.py`).

The file shallowly embeds the pipeline orchestrator (`process_job_pipeline`),
the SSE event broadcaster (`pipeline_events` / `_emit`), and the review
endpoints (`accept_candidate`, `reject_candidate`, `get_next_candidate_endpoint`,
`send_outreach`), together with the store-gateway operations and the rate
limiter, which live in modules (`database.py`, `rate_limiter.py`) that are not
part of the checked sources and are therefore modelled from the design
document's contracts.

Modelling conventions:
- machine integers are `Nat`/`Int`; timestamps are `Nat` seconds;
- the opaque async stage adapters (sourcing, matching, pitch-writer) are
  oracle parameters: each batch iteration consumes one `BatchOracle` holding
  the results the adapters would return, with `Except` for raised errors;
- the concurrent `asyncio.gather` fan-out is modelled as a left-to-right
  join over the selected matches (each coroutine's synchronous prefix runs in
  scheduling order, and the join collects every outcome);
- human-readable `message` strings inside events and python `print` logging
  are elided: no claim mentions them.
-/

namespace JobGoblin

/-! ### Data model (rows of the relational store) -/

/-- Raw item record returned by the generate (sourcing) stage. -/
structure Candidate where
  name : String
  email : String
  skills : List String
  current_role : String
  current_company : String
  years_experience : Nat
  location : String
  linkedin_summary : String
  linkedin_url : Option String
  company_website : Option String
  deriving Repr, DecidableEq

/-- Persisted item row (`candidates` table). -/
structure CandidateRow where
  id : Nat
  job_id : Nat
  name : String
  email : String
  skills : List String
  current_role : String
  current_company : String
  years_experience : Nat
  location : String
  linkedin_summary : String
  linkedin_url : Option String
  company_website : Option String
  status : String
  deriving Repr, DecidableEq

/-- Ranking result produced by the rank (matching) stage for one batch,
tagged with a batch-relative `candidate_index`. The index is an `Int`
because a malformed stage response may be negative (python list indexing
then wraps around). -/
structure MatchRes where
  candidate_index : Int
  score : Int
  key_highlights : List String
  fit_reasoning : String
  rank_position : Int
  deriving Repr, DecidableEq

/-- Persisted ranking row (`matches` table). -/
structure MatchRow where
  id : Nat
  job_id : Nat
  candidate_id : Nat
  score : Int
  key_highlights : List String
  fit_reasoning : String
  rank_position : Int
  deriving Repr, DecidableEq

/-- Persisted artifact row (`outreach` table). -/
structure OutreachRow where
  id : Nat
  job_id : Nat
  candidate_id : Nat
  subject : String
  body : String
  delivery_status : String
  error_message : Option String
  deriving Repr, DecidableEq

/-- The persistent store: three tables plus autoincrement counters
(the `matches` table is called `matchRows` because `matches` is reserved
in Lean). -/
structure Store where
  candidates : List CandidateRow
  matchRows : List MatchRow
  outreach : List OutreachRow
  nextCandidateId : Nat
  nextMatchId : Nat
  nextOutreachId : Nat
  deriving Repr, DecidableEq

/-- A job record; the orchestrator only reads its identity (all other
descriptive attributes are passed opaquely to the stage adapters). -/
structure Job where
  id : Nat
  title : String
  deriving Repr, DecidableEq

/-! ### Store gateway operations -/

/-- Modelled from the spec: `database.create_candidate` (database.py is not
under src/) — persists one item row with status `pending` and returns the
fresh identifier. -/
def create_candidate (st : Store) (job_id : Nat) (c : Candidate) : Store × Nat :=
  let cid := st.nextCandidateId
  ({ st with
      candidates := st.candidates ++
        [⟨cid, job_id, c.name, c.email, c.skills, c.current_role, c.current_company,
          c.years_experience, c.location, c.linkedin_summary, c.linkedin_url,
          c.company_website, "pending"⟩],
      nextCandidateId := cid + 1 }, cid)

/-- Modelled from the spec: `database.create_match` (database.py is not under
src/) — persists one ranking row. -/
def create_match (st : Store) (job_id candidate_id : Nat) (score : Int)
    (key_highlights : List String) (fit_reasoning : String) (rank_position : Int) : Store :=
  { st with
      matchRows := st.matchRows ++
        [⟨st.nextMatchId, job_id, candidate_id, score, key_highlights, fit_reasoning, rank_position⟩],
      nextMatchId := st.nextMatchId + 1 }

/-- Modelled from the spec: `database.create_outreach` (database.py is not
under src/) — persists one artifact row and returns the fresh identifier. -/
def create_outreach (st : Store) (job_id candidate_id : Nat)
    (subject body delivery_status : String) : Store × Nat :=
  let oid := st.nextOutreachId
  ({ st with
      outreach := st.outreach ++
        [⟨oid, job_id, candidate_id, subject, body, delivery_status, none⟩],
      nextOutreachId := oid + 1 }, oid)

/-- Modelled from the spec: `database.get_candidate` (database.py is not
under src/) — read one item row by identifier. -/
def get_candidate (st : Store) (candidate_id : Nat) : Option CandidateRow :=
  st.candidates.find? (fun c => c.id == candidate_id)

/-- Modelled from the spec: `database.update_candidate_status` (database.py is
not under src/) — set the status of one item row. -/
def update_candidate_status (st : Store) (candidate_id : Nat) (status : String) : Store :=
  { st with
      candidates := st.candidates.map
        (fun c => if c.id == candidate_id then { c with status := status } else c) }

/-- Modelled from the spec: `database.get_outreach` (database.py is not under
src/) — read one artifact row by identifier. -/
def get_outreach (st : Store) (outreach_id : Nat) : Option OutreachRow :=
  st.outreach.find? (fun o => o.id == outreach_id)

/-- Modelled from the spec: `database.get_outreach_by_candidate_id`
(database.py is not under src/) — read the artifact row attached to an item
(at most one non-superseded artifact per item is expected; the first match
in table order is returned). -/
def get_outreach_by_candidate_id (st : Store) (candidate_id : Nat) : Option OutreachRow :=
  st.outreach.find? (fun o => o.candidate_id == candidate_id)

/-- Modelled from the spec: `database.update_outreach_content` (database.py is
not under src/) — overwrite an artifact's subject and body. -/
def update_outreach_content (st : Store) (outreach_id : Nat) (subject body : String) : Store :=
  { st with
      outreach := st.outreach.map
        (fun o => if o.id == outreach_id then { o with subject := subject, body := body } else o) }

/-- Modelled from the spec: `database.update_outreach_status` (database.py is
not under src/) — set an artifact's delivery status and error message (the
`sent_at` timestamp is not modelled; no claim mentions it). -/
def update_outreach_status (st : Store) (outreach_id : Nat) (status : String)
    (err : Option String) : Store :=
  { st with
      outreach := st.outreach.map
        (fun o => if o.id == outreach_id then
            { o with delivery_status := status, error_message := err } else o) }

/-- Overwrite an artifact row's subject, body, delivery status and error
message, keeping its identity (used to state frame conditions). -/
def overwriteRow (x : OutreachRow) (s b stat : String) (err : Option String) : OutreachRow :=
  { x with subject := s, body := b, delivery_status := stat, error_message := err }

/-- Modelled from the spec: `database.get_next_candidate` (database.py is not
under src/) — the next `pending` item of the job joined with its ranking,
best score first (ties resolved by table order). -/
def get_next_candidate (st : Store) (job_id : Nat) : Option (CandidateRow × MatchRow) :=
  (st.candidates.filterMap (fun c =>
      if c.job_id == job_id && c.status == "pending" then
        (st.matchRows.find? (fun m => m.candidate_id == c.id)).map (fun m => (c, m))
      else none)).foldl
    (fun acc p =>
      match acc with
      | none => some p
      | some q => if q.2.score < p.2.score then some p else some q) none

/-! ### Pipeline events

Source: the `_emit` payload dictionaries in `process_job_pipeline`
(src/backend/main.py lines 114–209). The free-text `message` field is elided. -/

inductive Event where
  | pipeline_start (job_id total : Nat)
  | agent_start (agent : String)
  | agent_progress (agent : String) (count total : Nat)
  | agent_complete (agent : String) (count total : Nat)
  | pipeline_complete (job_id total : Nat)
  | pipeline_error (error : String)
  deriving Repr, DecidableEq

def isPipelineStart : Event → Bool
  | .pipeline_start _ _ => true
  | _ => false

def isPipelineComplete : Event → Bool
  | .pipeline_complete _ _ => true
  | _ => false

def isPipelineError : Event → Bool
  | .pipeline_error _ => true
  | _ => false

/-- The source's terminal test: `event.get("type") in ("pipeline_complete",
"pipeline_error")` (src/backend/main.py line 88). -/
def isTerminalEvent : Event → Bool
  | .pipeline_complete _ _ => true
  | .pipeline_error _ => true
  | _ => false

/-- An agent-stage progress event (none of the pipeline-level events). -/
def isAgentEvent : Event → Bool
  | .agent_start _ => true
  | .agent_progress _ _ _ => true
  | .agent_complete _ _ _ => true
  | _ => false

/-- `agent_start` emitted by the generate (sourcing) or rank (matching) stage. -/
def isGenRankStart : Event → Bool
  | .agent_start a => a == "sourcing" || a == "matching"
  | _ => false

/-- `agent_complete` emitted by the generate (sourcing) or rank (matching) stage. -/
def isGenRankComplete : Event → Bool
  | .agent_complete a _ _ => a == "sourcing" || a == "matching"
  | _ => false

/-! ### Python list indexing -/

/-- Python list subscription `xs[i]`: wraps a negative index by the list
length, raises `IndexError` (here `none`) when `i < -len(xs)` or
`i >= len(xs)`. -/
def pyIndex {α : Type} (xs : List α) (i : Int) : Option α :=
  if 0 ≤ i then xs.get? i.toNat
  else if 0 ≤ (xs.length : Int) + i then xs.get? ((xs.length : Int) + i).toNat
  else none

/-! ### The pipeline orchestrator (src/backend/main.py `process_job_pipeline`) -/

/-- Results the opaque stage adapters return for one batch iteration:
the generate stage's record list, the rank stage's result list (each
`Except.error` models the coroutine raising), and for the fan-out sub-stage
the pitch-writer outcome of the i-th selected top match. -/
structure BatchOracle where
  gen : Except String (List Candidate)
  rank : Except String (List MatchRes)
  synth : Nat → Except String (String × String)

/-- The candidate-persistence loop (src/backend/main.py lines 129–144):
persists each generated record in order, collecting the assigned ids. -/
def saveCandidates (job_id : Nat) : Store → List Candidate → Store × List Nat
  | st, [] => (st, [])
  | st, c :: rest =>
    let r := create_candidate st job_id c
    let r' := saveCandidates job_id r.1 rest
    (r'.1, r.2 :: r'.2)

/-- The ranking-persistence loop (src/backend/main.py lines 154–167): the
defensive bound check `candidate_idx < 0 or candidate_idx >= len(candidate_ids)`
skips the result, otherwise the ranking is stored against
`candidate_ids[candidate_idx]`. -/
def saveMatches (job_id : Nat) (candidate_ids : List Nat) : Store → List MatchRes → Store
  | st, [] => st
  | st, m :: rest =>
    if m.candidate_index < 0 ∨ (candidate_ids.length : Int) ≤ m.candidate_index then
      saveMatches job_id candidate_ids st rest
    else
      saveMatches job_id candidate_ids
        (create_match st job_id (candidate_ids.getD m.candidate_index.toNat 0)
          m.score m.key_highlights m.fit_reasoning m.rank_position) rest

/-- The fan-out sub-stage (src/backend/main.py lines 176–196,
`generate_and_save_pitch` joined by `asyncio.gather`): for the i-th selected
match, `candidate_ids[idx]` and `candidates[idx]` are read OUTSIDE the
try-block (an out-of-range index raises through the gather join and aborts
the batch); a pitch-writer failure is caught per item; a successful pitch is
persisted with `delivery_status="generated"`. -/
def fanOut (job_id : Nat) (candidate_ids : List Nat) (candidates : List Candidate)
    (synth : Nat → Except String (String × String)) :
    Store → List MatchRes → Nat → Except (Store × String) Store
  | st, [], _ => .ok st
  | st, m :: rest, i =>
    match pyIndex candidate_ids m.candidate_index, pyIndex candidates m.candidate_index with
    | some c_id, some _c_data =>
      match synth i with
      | .ok pitch =>
        let r := create_outreach st job_id c_id pitch.1 pitch.2 "generated"
        fanOut job_id candidate_ids candidates synth r.1 rest (i + 1)
      | .error _ => fanOut job_id candidate_ids candidates synth st rest (i + 1)
    | _, _ => .error (st, "IndexError: list index out of range")

/-- One iteration of the batch loop (src/backend/main.py lines 119–202),
given the stage results of this iteration. Returns the updated store, the
events emitted during the iteration in order, and either the new processed
count or the message of an uncaught error. -/
def runOneBatch (job_id count processed : Nat) (o : BatchOracle) (st : Store) :
    Store × List Event × Except String Nat :=
  match o.gen with
  | .error e => (st, [.agent_start "sourcing"], .error e)
  | .ok candidates =>
    let r := saveCandidates job_id st candidates
    match o.rank with
    | .error e =>
      (r.1, [.agent_start "sourcing",
             .agent_progress "sourcing" (processed + candidates.length) count,
             .agent_start "matching"], .error e)
    | .ok ms =>
      let st2 := saveMatches job_id r.2 r.1 ms
      let top := ms.filter (fun m => 75 ≤ m.score)
      if top.isEmpty then
        (st2, [.agent_start "sourcing",
               .agent_progress "sourcing" (processed + candidates.length) count,
               .agent_start "matching",
               .agent_complete "matching" (processed + candidates.length) count],
         .ok (processed + candidates.length))
      else
        match fanOut job_id r.2 candidates o.synth st2 top 0 with
        | .error se =>
          (se.1, [.agent_start "sourcing",
                  .agent_progress "sourcing" (processed + candidates.length) count,
                  .agent_start "matching",
                  .agent_complete "matching" (processed + candidates.length) count,
                  .agent_start "pitch_writer"], .error se.2)
        | .ok st3 =>
          (st3, [.agent_start "sourcing",
                 .agent_progress "sourcing" (processed + candidates.length) count,
                 .agent_start "matching",
                 .agent_complete "matching" (processed + candidates.length) count,
                 .agent_start "pitch_writer",
                 .agent_complete "pitch_writer" (processed + candidates.length) count],
           .ok (processed + candidates.length))

/-- Outcome of a pipeline run. `starved` models a run that is still inside
the batch loop when the supplied oracle results are exhausted (in particular
a loop that never finishes because the generate stage keeps returning zero
records). -/
inductive RunOutcome where
  | finished
  | errored (msg : String)
  | starved
  | noJob
  deriving Repr, DecidableEq

/-- Result of a pipeline run: final store, the emitted events in order, the
outcome, and the per-iteration trace of (current_batch_size, processed-after). -/
structure RunRes where
  store : Store
  events : List Event
  outcome : RunOutcome
  trace : List (Nat × Nat)
  deriving Repr

/-- The batch loop `while processed_count < count` (src/backend/main.py
lines 119–202), consuming one oracle per iteration. On loop exit the
`pipeline_complete` event is emitted (line 205). -/
def runBatches (job_id count : Nat) : List BatchOracle → Nat → Store → RunRes
  | [], processed, st =>
    if processed < count then ⟨st, [], .starved, []⟩
    else ⟨st, [.pipeline_complete job_id count], .finished, []⟩
  | o :: rest, processed, st =>
    if processed < count then
      match runOneBatch job_id count processed o st with
      | (st', evs, .error e) => ⟨st', evs, .errored e, []⟩
      | (st', evs, .ok p') =>
        let r := runBatches job_id count rest p' st'
        ⟨r.store, evs ++ r.events, r.outcome, (min 5 (count - processed), p') :: r.trace⟩
    else ⟨st, [.pipeline_complete job_id count], .finished, []⟩

/-- The full background task (src/backend/main.py lines 104–211): a missing
job terminates silently; otherwise `pipeline_start` is emitted, the batch
loop runs, and an uncaught error is converted into a trailing
`pipeline_error` event by the top-level except-block. -/
def process_job_pipeline (job : Option Job) (count : Nat) (oracles : List BatchOracle)
    (st : Store) : RunRes :=
  match job with
  | none => ⟨st, [], .noJob, []⟩
  | some j =>
    let r := runBatches j.id count oracles 0 st
    match r.outcome with
    | .errored e =>
      ⟨r.store, .pipeline_start j.id count :: r.events ++ [.pipeline_error e], .errored e, r.trace⟩
    | _ => ⟨r.store, .pipeline_start j.id count :: r.events, r.outcome, r.trace⟩

/-! ### Event broadcaster (src/backend/main.py `pipeline_events`, `_emit`)

The registry `pipeline_queues : dict[int, asyncio.Queue]` is modelled as an
association list from job id to the mailbox contents (the events enqueued
and not yet consumed, in order). -/

abbrev Registry := List (Nat × List Event)

def lookupQueue (reg : Registry) (job_id : Nat) : Option (List Event) :=
  (reg.find? (fun p => p.1 == job_id)).map Prod.snd

/-- `pipeline_queues[job_id] = asyncio.Queue()` (src/backend/main.py lines
76–77): attaching an observer installs a fresh empty mailbox, replacing any
prior one. -/
def attach (reg : Registry) (job_id : Nat) : Registry :=
  (job_id, []) :: reg.filter (fun p => p.1 ≠ job_id)

/-- `_emit` (src/backend/main.py lines 66–70): enqueue the event when a
mailbox is registered for the job, otherwise drop it silently. -/
def emit (reg : Registry) (job_id : Nat) (e : Event) : Registry :=
  match lookupQueue reg job_id with
  | none => reg
  | some _ => reg.map (fun p => if p.1 == job_id then (p.1, p.2 ++ [e]) else p)

/-- `pipeline_queues.pop(job_id, None)` in the generator's finally-block
(src/backend/main.py line 91). -/
def popQueue (reg : Registry) (job_id : Nat) : Registry :=
  reg.filter (fun p => p.1 ≠ job_id)

/-- The observer loop of `event_generator` (src/backend/main.py lines 79–89)
run over the mailbox contents: events are delivered in order until the first
terminal event, after which the generator breaks (`true`). On an exhausted
mailbox the generator keeps waiting — `queue.get` times out every 120 s,
yields a keep-alive comment frame and loops, so the stream has NOT finished
(`false`). -/
def drainStream : List Event → List Event × Bool
  | [] => ([], false)
  | e :: rest =>
    if isTerminalEvent e then ([e], true)
    else
      let r := drainStream rest
      (e :: r.1, r.2)

/-- One observer draining a job's mailbox: the delivered events, whether the
stream finished (a terminal event was drained), and the registry afterwards —
the generator's finally-block removes the mailbox exactly when the generator
exits (which, absent a client disconnect, happens on breaking at a terminal
event). -/
def observe (reg : Registry) (job_id : Nat) : List Event × Bool × Registry :=
  let r := drainStream ((lookupQueue reg job_id).getD [])
  (r.1, r.2, if r.2 then popQueue reg job_id else reg)

/-! ### Rate limiter

rate_limiter.py is not under src/; the limiter is modelled from the spec's
fixed-window contract (design document §4.1). Time is `Nat` seconds and the
window-start of a bucket never exceeds the current time, so the spec's
`now - window_start >= window_seconds` is written `window_start + window ≤ now`. -/

structure Bucket where
  count : Nat
  window_start : Nat
  deriving Repr, DecidableEq

abbrev Buckets := List ((String × String) × Bucket)

def lookupBucket (bs : Buckets) (key : String × String) : Option Bucket :=
  (bs.find? (fun p => p.1 == key)).map Prod.snd

def setBucket (bs : Buckets) (key : String × String) (b : Bucket) : Buckets :=
  (key, b) :: bs.filter (fun p => p.1 ≠ key)

/-- Modelled from the spec: `rate_limiter.RateLimiter.check` (rate_limiter.py
is not under src/) — fixed-window counting per `(action, caller)` bucket:
an elapsed window resets the bucket to count 1 and succeeds; otherwise a
count below the limit increments and succeeds; otherwise the call fails
(RateLimitExceeded). Returns the new bucket map and whether the call
succeeded. -/
def check (bs : Buckets) (action caller : String) (limit window now : Nat) :
    Buckets × Bool :=
  match lookupBucket bs (action, caller) with
  | none => (setBucket bs (action, caller) ⟨1, now⟩, true)
  | some b =>
    if b.window_start + window ≤ now then
      (setBucket bs (action, caller) ⟨1, now⟩, true)
    else if b.count < limit then
      (setBucket bs (action, caller) ⟨b.count + 1, b.window_start⟩, true)
    else (bs, false)

/-- A sequence of `check` calls at the given timestamps, returning the final
bucket map and each call's success flag in order. -/
def checkSeq (action caller : String) (limit window : Nat) :
    Buckets → List Nat → Buckets × List Bool
  | bs, [] => (bs, [])
  | bs, t :: ts =>
    let r := check bs action caller limit window t
    let r' := checkSeq action caller limit window r.1 ts
    (r'.1, r.2 :: r'.2)

/-! ### JSON response shapes

The review endpoints return JSON dictionaries; a dictionary is embedded as
an association list of field name to value, so that the exact set and order
of keys the source writes is preserved. -/

inductive FieldVal where
  | vnull
  | vnat (n : Nat)
  | vint (n : Int)
  | vstr (s : String)
  | vlist (l : List String)
  deriving Repr, DecidableEq

abbrev JObj := List (String × FieldVal)

def optStr : Option String → FieldVal
  | some s => .vstr s
  | none => .vnull

/-- The `candidate` object of `get_next_candidate_endpoint`
(src/backend/main.py lines 275–288). -/
def candidateFullObj (c : CandidateRow) : JObj :=
  [("id", .vnat c.id), ("name", .vstr c.name), ("current_role", .vstr c.current_role),
   ("current_company", .vstr c.current_company),
   ("years_experience", .vnat c.years_experience), ("skills", .vlist c.skills),
   ("location", .vstr c.location), ("email", .vstr c.email),
   ("linkedin_summary", .vstr c.linkedin_summary),
   ("linkedin_url", optStr c.linkedin_url),
   ("company_website", optStr c.company_website), ("status", .vstr c.status)]

/-- The `match` object of `get_next_candidate_endpoint`
(src/backend/main.py lines 289–295). -/
def matchFullObj (m : MatchRow) : JObj :=
  [("id", .vnat m.id), ("score", .vint m.score),
   ("key_highlights", .vlist m.key_highlights),
   ("fit_reasoning", .vstr m.fit_reasoning),
   ("rank_position", .vint m.rank_position)]

/-- The `next_candidate.candidate` object of `reject_candidate`
(src/backend/main.py lines 397–407). -/
def candidateRejectObj (c : CandidateRow) : JObj :=
  [("id", .vnat c.id), ("name", .vstr c.name), ("current_role", .vstr c.current_role),
   ("current_company", .vstr c.current_company),
   ("years_experience", .vnat c.years_experience), ("skills", .vlist c.skills),
   ("location", .vstr c.location), ("email", .vstr c.email),
   ("linkedin_summary", .vstr c.linkedin_summary)]

/-- The `next_candidate.match` object of `reject_candidate`
(src/backend/main.py lines 408–413). -/
def matchRejectObj (m : MatchRow) : JObj :=
  [("score", .vint m.score), ("key_highlights", .vlist m.key_highlights),
   ("fit_reasoning", .vstr m.fit_reasoning),
   ("rank_position", .vint m.rank_position)]

/-! ### Review endpoints (src/backend/main.py) -/

/-- Response of `GET /api/jobs/{job_id}/candidates`
(src/backend/main.py lines 255–297). The aggregate `stats` object is elided:
no claim of this development mentions its contents. -/
structure NextResponse where
  candidate : Option JObj
  matchObj : Option JObj
  deriving Repr, DecidableEq

/-- `get_next_candidate_endpoint` (src/backend/main.py lines 255–297). -/
def get_next_candidate_endpoint (st : Store) (job_id : Nat) : NextResponse :=
  match get_next_candidate st job_id with
  | none => ⟨none, none⟩
  | some cm => ⟨some (candidateFullObj cm.1), some (matchFullObj cm.2)⟩

/-- Outcome of `PUT /api/candidates/{id}/accept`. -/
inductive AcceptResult where
  | notFound
  | noMatch
  | pitchFailed (e : String)
  | ok (status subject body : String) (outreach_id : Nat)
  deriving Repr, DecidableEq

/-- `accept_candidate` (src/backend/main.py lines 300–368): mark the item
accepted; return the pre-generated artifact if one exists (promoting a
`generated` artifact to `draft`), else synthesize a pitch on demand
(`pitchRes` is the opaque pitch-writer outcome) and persist it as `draft`.
`notFound` is the 404, `noMatch` the 500 for a missing ranking row,
`pitchFailed` an uncaught pitch-writer error. -/
def accept_candidate (st : Store) (candidate_id : Nat)
    (pitchRes : Except String (String × String)) : Store × AcceptResult :=
  match get_candidate st candidate_id with
  | none => (st, .notFound)
  | some cand =>
    let st1 := update_candidate_status st candidate_id "accepted"
    match get_outreach_by_candidate_id st1 candidate_id with
    | some ex =>
      let st2 := if ex.delivery_status == "generated" then
          update_outreach_status st1 ex.id "draft" none
        else st1
      (st2, .ok "draft_retrieved" ex.subject ex.body ex.id)
    | none =>
      match st1.matchRows.find? (fun m => m.candidate_id == candidate_id) with
      | none => (st1, .noMatch)
      | some _mrow =>
        match pitchRes with
        | .error e => (st1, .pitchFailed e)
        | .ok pitch =>
          let r := create_outreach st1 cand.job_id candidate_id pitch.1 pitch.2 "draft"
          (r.1, .ok "draft_created" pitch.1 pitch.2 r.2)

/-- Outcome of `PUT /api/candidates/{id}/reject`. -/
inductive RejectResult where
  | notFound
  | ok (next : Option (JObj × JObj))
  deriving Repr, DecidableEq

/-- `reject_candidate` (src/backend/main.py lines 371–415): mark the item
rejected, then return the next pending item of the same job (candidate and
match objects as the source builds them) or `none`. -/
def reject_candidate (st : Store) (candidate_id : Nat) : Store × RejectResult :=
  match get_candidate st candidate_id with
  | none => (st, .notFound)
  | some cand =>
    let st1 := update_candidate_status st candidate_id "rejected"
    match get_next_candidate st1 cand.job_id with
    | none => (st1, .ok none)
    | some cm => (st1, .ok (some (candidateRejectObj cm.1, matchRejectObj cm.2)))

/-- Outcome of `POST /api/outreach/send`. -/
inductive SendResult where
  | outreachNotFound
  | candidateNotFound
  | done (success : Bool) (message : String)
  deriving Repr, DecidableEq

/-- `send_outreach` (src/backend/main.py lines 425–458): 404 when the
artifact is missing; otherwise the edited subject/body are persisted FIRST,
then the candidate is looked up (404 leaves the edits in place), then the
opaque `deliver` call runs; on success the artifact becomes `sent` and the
candidate `contacted`, on failure the artifact becomes `failed` carrying the
delivery error message. -/
def send_outreach (st : Store) (outreach_id : Nat) (subject body : String)
    (deliver : String → String → String → Bool × String) : Store × SendResult :=
  match get_outreach st outreach_id with
  | none => (st, .outreachNotFound)
  | some o =>
    let st1 := update_outreach_content st outreach_id subject body
    match get_candidate st1 o.candidate_id with
    | none => (st1, .candidateNotFound)
    | some cand =>
      let d := deliver cand.email subject body
      if d.1 then
        let st2 := update_outreach_status st1 outreach_id "sent" none
        (update_candidate_status st2 cand.id "contacted", .done true d.2)
      else
        (update_outreach_status st1 outreach_id "failed" (some d.2), .done false d.2)

/-! ### Auxiliary definitions for theorem statements -/

/-- Number of successful pitch-writer outcomes among `n` fan-out calls
starting at call index `i`. -/
def countSynthOk (synth : Nat → Except String (String × String)) : Nat → Nat → Nat
  | _, 0 => 0
  | i, n + 1 => (if (synth i).toBool then 1 else 0) + countSynthOk synth (i + 1) n

/-- Number of failing pitch-writer outcomes among `n` fan-out calls starting
at call index `i`. -/
def countSynthErr (synth : Nat → Except String (String × String)) : Nat → Nat → Nat
  | _, 0 => 0
  | i, n + 1 => (if (synth i).toBool then 0 else 1) + countSynthErr synth (i + 1) n

/-- An oracle obeying the stage-adapter contracts on the nominal path: the
generate stage returns exactly the five requested records, the rank stage
succeeds, and every top-scoring result carries a valid batch-relative index. -/
def GoodOracle (o : BatchOracle) : Prop :=
  (∃ cs, o.gen = Except.ok cs ∧ cs.length = 5) ∧
  (∃ ms, o.rank = Except.ok ms ∧
    ∀ m ∈ ms, 75 ≤ m.score → 0 ≤ m.candidate_index ∧ m.candidate_index < 5)

/-- The batch trace of a nominal run: every iteration requests 5 records and
advances the processed count by 5. -/
def goodTrace : Nat → Nat → List (Nat × Nat)
  | _, 0 => []
  | p, n + 1 => (5, p + 5) :: goodTrace (p + 5) n

/-! ### Concrete fixtures for witnesses and counterexamples -/

def stEmpty : Store := ⟨[], [], [], 1, 1, 1⟩

def sampleCandidate (n : String) : Candidate :=
  ⟨n, n ++ "@example.com", ["python"], "engineer", "acme", 5, "remote", "summary", none, none⟩

def sampleMatch (i : Int) (s : Int) : MatchRes := ⟨i, s, ["highlight"], "fits", 1⟩

/-- A nominal batch: five records, five in-range rankings, one top score. -/
def oracleGood : BatchOracle :=
  ⟨Except.ok [sampleCandidate "a", sampleCandidate "b", sampleCandidate "c",
              sampleCandidate "d", sampleCandidate "e"],
   Except.ok [sampleMatch 0 80, sampleMatch 1 60, sampleMatch 2 50,
              sampleMatch 3 40, sampleMatch 4 30],
   fun _ => Except.ok ("Subject", "Body")⟩

/-- A malformed rank response: one record generated, but the ranking points
at batch index 1 with a top score. -/
def oracleIndexTooFar : BatchOracle :=
  ⟨Except.ok [sampleCandidate "a"], Except.ok [sampleMatch 1 80],
   fun _ => Except.ok ("Subject", "Body")⟩

/-- A malformed rank response with a negative top-scoring index: python list
indexing wraps `-1` to the last element of the batch. -/
def oracleIndexNegative : BatchOracle :=
  ⟨Except.ok [sampleCandidate "a", sampleCandidate "b"],
   Except.ok [sampleMatch (-1) 80],
   fun _ => Except.ok ("Subject", "Body")⟩

/-- A batch with five top-scoring selections of which the first three fail
synthesis. -/
def oracleThreeFailures : BatchOracle :=
  ⟨Except.ok [sampleCandidate "a", sampleCandidate "b", sampleCandidate "c",
              sampleCandidate "d", sampleCandidate "e"],
   Except.ok [sampleMatch 0 90, sampleMatch 1 88, sampleMatch 2 86,
              sampleMatch 3 84, sampleMatch 4 82],
   fun i => if i < 3 then Except.error "synthesis failed" else Except.ok ("Subject", "Body")⟩

/-- A store with two pending candidates of job 1 ranked 90 and 80. -/
def stTwoPending : Store :=
  ⟨[⟨1, 1, "a", "a@example.com", ["python"], "engineer", "acme", 5, "remote", "summary", none, none, "pending"⟩,
    ⟨2, 1, "b", "b@example.com", ["python"], "engineer", "acme", 5, "remote", "summary", none, none, "pending"⟩],
   [⟨1, 1, 1, 90, ["highlight"], "fits", 1⟩, ⟨2, 1, 2, 80, ["highlight"], "fits", 2⟩],
   [], 3, 3, 1⟩

/-- The row of candidate 2 after candidate 1 was rejected in `stTwoPending`. -/
def candRow2 : CandidateRow :=
  ⟨2, 1, "b", "b@example.com", ["python"], "engineer", "acme", 5, "remote", "summary", none, none, "pending"⟩

def matchRow2 : MatchRow := ⟨2, 1, 2, 80, ["highlight"], "fits", 2⟩

/-- A store with one pending candidate of job 1, its ranking, no artifact. -/
def stOnePending : Store :=
  ⟨[⟨1, 1, "a", "a@example.com", ["python"], "engineer", "acme", 5, "remote", "summary", none, none, "pending"⟩],
   [⟨1, 1, 1, 90, ["highlight"], "fits", 1⟩],
   [], 2, 2, 1⟩

/-- A store holding one draft artifact (id 1) for candidate 1 of job 1. -/
def stWithDraft : Store :=
  ⟨[⟨1, 1, "a", "a@example.com", ["python"], "engineer", "acme", 5, "remote", "summary", none, none, "accepted"⟩],
   [⟨1, 1, 1, 90, ["highlight"], "fits", 1⟩],
   [⟨1, 1, 1, "Old subject", "Old body", "draft", none⟩], 2, 2, 2⟩

/-! ## Theorems -/

/-! ### Event broadcaster lemmas -/

theorem lookupQueue_attach_self (reg : Registry) (job_id : Nat) :
    lookupQueue (attach reg job_id) job_id = some [] := by
  simp [lookupQueue, attach, List.find?_cons_of_pos]

theorem lookupQueue_popQueue_self (reg : Registry) (job_id : Nat) :
    lookupQueue (popQueue reg job_id) job_id = none := by
  unfold lookupQueue popQueue
  rw [List.find?_eq_none.mpr]
  · rfl
  · intro p hp
    rcases List.mem_filter.mp hp with ⟨-, hne⟩
    simpa using hne

theorem emit_absent (reg : Registry) (job_id : Nat) (e : Event)
    (h : lookupQueue reg job_id = none) : emit reg job_id e = reg := by
  unfold emit
  rw [h]

theorem drainStream_stops_at_terminal (post : List Event) (t : Event)
    (ht : isTerminalEvent t = true) :
    ∀ pre : List Event, (∀ e ∈ pre, isTerminalEvent e = false) →
      drainStream (pre ++ t :: post) = (pre ++ [t], true) := by
  intro pre
  induction pre with
  | nil => intro _; simp [drainStream, ht]
  | cons e rest ih =>
    intro hpre
    have he : isTerminalEvent e = false := hpre e (by simp)
    have hrest := ih (fun x hx => hpre x (by simp [hx]))
    simp [drainStream, he, hrest]

/-- C4: for every job, once an observer drains a terminal event no later
event is delivered: the drained sequence stops at the first terminal event,
the stream ends, the job's mailbox is removed from the registry, and any
subsequent emit for that job leaves the registry unchanged (it is dropped). -/
theorem C4_no_delivery_after_terminal (reg : Registry) (job_id : Nat)
    (pre post : List Event) (t : Event)
    (hq : lookupQueue reg job_id = some (pre ++ t :: post))
    (hpre : ∀ e ∈ pre, isTerminalEvent e = false)
    (ht : isTerminalEvent t = true) :
    (observe reg job_id).1 = pre ++ [t]
    ∧ (observe reg job_id).2.1 = true
    ∧ lookupQueue (observe reg job_id).2.2 job_id = none
    ∧ ∀ e, emit (observe reg job_id).2.2 job_id e = (observe reg job_id).2.2 := by
  have hd := drainStream_stops_at_terminal post t ht pre hpre
  have hobs : observe reg job_id = (pre ++ [t], true, popQueue reg job_id) := by
    unfold observe
    rw [hq]
    simp [hd]
  refine ⟨by rw [hobs], by rw [hobs], ?_, ?_⟩
  · rw [hobs]
    exact lookupQueue_popQueue_self reg job_id
  · intro e
    rw [hobs]
    exact emit_absent _ _ e (lookupQueue_popQueue_self reg job_id)

/-- Witness for C4 at a concrete mailbox: the event enqueued after
`pipeline_complete` is not delivered and the mailbox is gone afterwards. -/
theorem C4_no_delivery_after_terminal_witness :
    (observe [(1, [Event.agent_start "sourcing", Event.pipeline_complete 1 5,
                   Event.agent_start "ghost"])] 1).1
      = [Event.agent_start "sourcing", Event.pipeline_complete 1 5]
    ∧ lookupQueue (observe [(1, [Event.agent_start "sourcing", Event.pipeline_complete 1 5,
                   Event.agent_start "ghost"])] 1).2.2 1 = none := by
  have h := C4_no_delivery_after_terminal
    [(1, [Event.agent_start "sourcing", Event.pipeline_complete 1 5, Event.agent_start "ghost"])]
    1 [Event.agent_start "sourcing"] [Event.agent_start "ghost"] (Event.pipeline_complete 1 5)
    (by decide) (by decide) (by decide)
  exact ⟨h.1, h.2.2.1⟩

/-- C3 counterexample: a run of job 1 completes (`pipeline_complete` was
emitted and dropped, as no observer was attached); attaching afterwards
installs a fresh empty mailbox, and the observer's stream delivers no event
but does NOT finish — the generator stays in its keep-alive loop
(`drainStream` returns `false`), refuting "finishes immediately". -/
theorem C3_attach_after_complete_counterexample :
    (process_job_pipeline (some ⟨1, "t"⟩) 5 [oracleGood] stEmpty).outcome = RunOutcome.finished
    ∧ (observe (attach [] 1) 1).1 = []
    ∧ (observe (attach [] 1) 1).2.1 = false := by decide

/-- C3 amended: attaching an observer to a job whose run already emitted
`pipeline_complete` yields a stream that delivers no events but does not
finish on its own: the generator keeps waiting (emitting keep-alive frames),
and the fresh mailbox stays registered until the observer disconnects. -/
theorem C3_attach_after_complete_amended (reg : Registry) (job_id : Nat) :
    (observe (attach reg job_id) job_id).1 = []
    ∧ (observe (attach reg job_id) job_id).2.1 = false
    ∧ lookupQueue (observe (attach reg job_id) job_id).2.2 job_id = some [] := by
  have h := lookupQueue_attach_self reg job_id
  have hobs : observe (attach reg job_id) job_id = ([], false, attach reg job_id) := by
    unfold observe
    rw [h]
    simp [drainStream]
  refine ⟨by rw [hobs], by rw [hobs], ?_⟩
  rw [hobs]
  exact h

/-! ### Rate limiter (C6) -/

/-- C6: fixed-window semantics of `check`: an elapsed window resets the
bucket to count 1 and succeeds; otherwise a count below the limit increments
and succeeds; otherwise the call fails. In particular, with limit 10 and
window 3600, the 11th `check("create_job", caller)` within one window fails,
and the first call after the window elapses succeeds with the counter reset
to 1. -/
theorem C6_rate_limiter_fixed_window :
    (∀ bs a c lim w now b, lookupBucket bs (a, c) = some b →
        b.window_start + w ≤ now →
        check bs a c lim w now = (setBucket bs (a, c) ⟨1, now⟩, true))
    ∧ (∀ bs a c lim w now b, lookupBucket bs (a, c) = some b →
        ¬(b.window_start + w ≤ now) → b.count < lim →
        check bs a c lim w now = (setBucket bs (a, c) ⟨b.count + 1, b.window_start⟩, true))
    ∧ (∀ bs a c lim w now b, lookupBucket bs (a, c) = some b →
        ¬(b.window_start + w ≤ now) → ¬(b.count < lim) →
        check bs a c lim w now = (bs, false))
    ∧ ((checkSeq "create_job" "caller" 10 3600 [] (List.replicate 11 0)).2
          = List.replicate 10 true ++ [false]
       ∧ (check (checkSeq "create_job" "caller" 10 3600 [] (List.replicate 11 0)).1
            "create_job" "caller" 10 3600 3600).2 = true
       ∧ lookupBucket (check (checkSeq "create_job" "caller" 10 3600 []
              (List.replicate 11 0)).1 "create_job" "caller" 10 3600 3600).1
            ("create_job", "caller") = some ⟨1, 3600⟩) := by
  refine ⟨?_, ?_, ?_, by decide⟩
  · intro bs a c lim w now b hb hw
    unfold check
    rw [hb]
    dsimp only
    rw [if_pos hw]
  · intro bs a c lim w now b hb hw hc
    unfold check
    rw [hb]
    dsimp only
    rw [if_neg hw, if_pos hc]
  · intro bs a c lim w now b hb hw hc
    unfold check
    rw [hb]
    dsimp only
    rw [if_neg hw, if_neg hc]

/-- Witness for C6: each branch of the fixed-window trichotomy exercised at
a concrete bucket. -/
theorem C6_rate_limiter_fixed_window_witness :
    check [(("a", "c"), ⟨3, 0⟩)] "a" "c" 10 3600 5000
        = (setBucket [(("a", "c"), ⟨3, 0⟩)] ("a", "c") ⟨1, 5000⟩, true)
    ∧ check [(("a", "c"), ⟨3, 0⟩)] "a" "c" 10 3600 100
        = (setBucket [(("a", "c"), ⟨3, 0⟩)] ("a", "c") ⟨4, 0⟩, true)
    ∧ check [(("a", "c"), ⟨10, 0⟩)] "a" "c" 10 3600 100
        = ([(("a", "c"), ⟨10, 0⟩)], false) :=
  ⟨C6_rate_limiter_fixed_window.1 _ "a" "c" 10 3600 5000 ⟨3, 0⟩ (by decide) (by decide),
   C6_rate_limiter_fixed_window.2.1 _ "a" "c" 10 3600 100 ⟨3, 0⟩ (by decide) (by decide) (by decide),
   C6_rate_limiter_fixed_window.2.2.1 _ "a" "c" 10 3600 100 ⟨10, 0⟩ (by decide) (by decide) (by decide)⟩

/-! ### Generic association-list lemmas -/

theorem find?_map_invariant {α : Type} (f : α → α) (p : α → Bool)
    (hf : ∀ a, p (f a) = p a) : ∀ l : List α, (l.map f).find? p = (l.find? p).map f := by
  intro l
  induction l with
  | nil => rfl
  | cons a t ih =>
    cases h : p a with
    | true =>
      rw [List.map_cons, List.find?_cons_of_pos _ (by rw [hf]; exact h),
        List.find?_cons_of_pos _ h]
      rfl
    | false =>
      rw [List.map_cons, List.find?_cons_of_neg _ (by simp [hf, h]),
        List.find?_cons_of_neg _ (by simp [h]), ih]

theorem find?_append_none {α : Type} (p : α → Bool) (l₂ : List α) :
    ∀ l₁ : List α, l₁.find? p = none → (l₁ ++ l₂).find? p = l₂.find? p := by
  intro l₁
  induction l₁ with
  | nil => intro _; rfl
  | cons a t ih =>
    intro h
    rw [List.find?_eq_none] at h
    have hpa : ¬ p a = true := h a (by simp)
    rw [List.cons_append, List.find?_cons_of_neg _ hpa]
    exact ih (List.find?_eq_none.mpr (fun x hx => h x (by simp [hx])))

/-- Editing an artifact's content and then its delivery status is one
pointwise table update. -/
theorem outreach_content_then_status (st : Store) (oid : Nat) (s b stat : String)
    (err : Option String) :
    update_outreach_status (update_outreach_content st oid s b) oid stat err
      = { st with
            outreach := st.outreach.map
              (fun o => if o.id == oid then overwriteRow o s b stat err else o) } := by
  unfold update_outreach_status update_outreach_content
  simp only [List.map_map]
  congr 1
  apply List.map_congr_left
  intro x _
  cases hx : x.id == oid <;> simp [Function.comp, overwriteRow, hx]

/-! ### C10: send-outreach persists edits before delivery -/

/-- C10: on an existing artifact, the edited subject and body are persisted
before delivery is attempted — they are in the store whether delivery
succeeds, fails, or the candidate lookup 404s; and on delivery failure the
only change relative to the original store is that artifact's row, which
keeps the edits and gets `delivery_status = "failed"` with the delivery
error message, while the candidates table (in particular the candidate's
status) is untouched. -/
theorem C10_send_outreach_edit_persistence (st : Store) (oid : Nat)
    (subject body : String) (deliver : String → String → String → Bool × String)
    (o : OutreachRow) (h : get_outreach st oid = some o) :
    (∃ o2, get_outreach (send_outreach st oid subject body deliver).1 oid = some o2
        ∧ o2.subject = subject ∧ o2.body = body)
    ∧ (∀ msg, (send_outreach st oid subject body deliver).2 = .done false msg →
        (send_outreach st oid subject body deliver).1.candidates = st.candidates
        ∧ (send_outreach st oid subject body deliver).1.matchRows = st.matchRows
        ∧ (send_outreach st oid subject body deliver).1.outreach
            = st.outreach.map (fun x => if x.id == oid then
                overwriteRow x subject body "failed" (some msg) else x)) := by
  have h' : List.find? (fun x => x.id == oid) st.outreach = some o := h
  have hpo : (o.id == oid) = true := by simpa using List.find?_some h'
  have heq : o.id = oid := by simpa using hpo
  have hinv : ∀ s' b' stat err, ∀ a : OutreachRow,
      ((if a.id == oid then overwriteRow a s' b' stat err else a).id == oid) = (a.id == oid) := by
    intro s' b' stat err a
    cases ha : a.id == oid <;> simp [overwriteRow, ha]
  have hcontent : ∀ stat err, get_outreach
      ({ st with
            outreach := st.outreach.map
              (fun x => if x.id == oid then overwriteRow x subject body stat err else x) } : Store) oid
      = some (overwriteRow o subject body stat err) := by
    intro stat err
    unfold get_outreach
    rw [show ({ st with
            outreach := st.outreach.map
              (fun x => if x.id == oid then overwriteRow x subject body stat err else x) } : Store).outreach
        = st.outreach.map
            (fun x => if x.id == oid then overwriteRow x subject body stat err else x) from rfl,
      find?_map_invariant _ _ (hinv subject body stat err) _, h']
    simp [heq]
  unfold send_outreach
  rw [h]
  dsimp only
  cases hc : get_candidate (update_outreach_content st oid subject body) o.candidate_id with
  | none =>
    refine ⟨⟨{ o with subject := subject, body := body }, ?_, rfl, rfl⟩, ?_⟩
    · have hinv2 : ∀ a : OutreachRow,
          ((if a.id == oid then { a with subject := subject, body := body } else a).id == oid)
            = (a.id == oid) := by
        intro a
        cases ha : a.id == oid <;> simp [ha]
      unfold get_outreach update_outreach_content
      rw [show ({ st with
            outreach := st.outreach.map
              (fun x => if x.id == oid then { x with subject := subject, body := body } else x) } : Store).outreach
          = st.outreach.map
              (fun x => if x.id == oid then { x with subject := subject, body := body } else x) from rfl,
        find?_map_invariant _ _ hinv2 _, h']
      simp [heq]
    · intro msg hmsg
      exact SendResult.noConfusion hmsg
  | some cand =>
    dsimp only
    cases hd : (deliver cand.email subject body).1 with
    | true =>
      rw [if_pos rfl]
      refine ⟨⟨overwriteRow o subject body "sent" none, ?_, rfl, rfl⟩, ?_⟩
      · have huc : ∀ st' : Store,
            get_outreach (update_candidate_status st' cand.id "contacted") oid
              = get_outreach st' oid := by
          intro st'
          unfold get_outreach update_candidate_status
          rfl
        rw [huc, outreach_content_then_status]
        exact hcontent "sent" none
      · intro msg hmsg
        simp at hmsg
    | false =>
      rw [if_neg (by simp)]
      refine ⟨⟨overwriteRow o subject body "failed" (some (deliver cand.email subject body).2),
          ?_, rfl, rfl⟩, ?_⟩
      · rw [outreach_content_then_status]
        exact hcontent "failed" (some (deliver cand.email subject body).2)
      · intro msg hmsg
        have hmsg2 : (deliver cand.email subject body).2 = msg := by
          injection hmsg
        subst hmsg2
        rw [outreach_content_then_status]
        exact ⟨rfl, rfl, rfl⟩

/-- Witness for C10 at a concrete store with a failing delivery call. -/
theorem C10_send_outreach_edit_persistence_witness :
    (∃ o2, get_outreach (send_outreach stWithDraft 1 "New subject" "New body"
        (fun _ _ _ => (false, "smtp down"))).1 1 = some o2
      ∧ o2.subject = "New subject" ∧ o2.body = "New body")
    ∧ (send_outreach stWithDraft 1 "New subject" "New body"
        (fun _ _ _ => (false, "smtp down"))).1.candidates = stWithDraft.candidates :=
  ⟨(C10_send_outreach_edit_persistence stWithDraft 1 "New subject" "New body"
      (fun _ _ _ => (false, "smtp down")) ⟨1, 1, 1, "Old subject", "Old body", "draft", none⟩
      (by decide)).1,
   ((C10_send_outreach_edit_persistence stWithDraft 1 "New subject" "New body"
      (fun _ _ _ => (false, "smtp down")) ⟨1, 1, 1, "Old subject", "Old body", "draft", none⟩
      (by decide)).2 "smtp down" (by decide)).1⟩

/-! ### C1: out-of-range rank results -/

theorem pyIndex_eq_none {α : Type} (xs : List α) (i : Int)
    (h : i < -(xs.length : Int) ∨ (xs.length : Int) ≤ i) : pyIndex xs i = none := by
  unfold pyIndex
  rcases h with h | h
  · rw [if_neg (by omega), if_neg (by omega)]
  · rw [if_pos (by omega)]
    exact List.get?_eq_none.mpr (by omega)

theorem pyIndex_neg {α : Type} (xs : List α) (i : Int)
    (h1 : -(xs.length : Int) ≤ i) (h2 : i < 0) :
    pyIndex xs i = xs.get? ((xs.length : Int) + i).toNat := by
  unfold pyIndex
  rw [if_neg (by omega), if_pos (by omega)]

/-- C1 counterexample. A rank result with out-of-range index 1 for a
1-record batch and score 80 is discarded at ranking persistence, but in the
fan-out synthesis sub-stage it raises `IndexError` through the gather join:
the run aborts with `pipeline_error` — refuting "the run does not abort".
A rank result with index -1 and score 80 for a 2-record batch persists no
ranking but makes the fan-out synthesize and persist an artifact for the
unrelated last item of the batch — refuting "they do not affect any
unrelated item". -/
theorem C1_out_of_range_counterexample :
    ((process_job_pipeline (some ⟨1, "t"⟩) 1 [oracleIndexTooFar] stEmpty).outcome
        = RunOutcome.errored "IndexError: list index out of range"
     ∧ (process_job_pipeline (some ⟨1, "t"⟩) 1 [oracleIndexTooFar] stEmpty).events.countP
          isPipelineError = 1
     ∧ (process_job_pipeline (some ⟨1, "t"⟩) 1 [oracleIndexTooFar] stEmpty).store.matchRows = [])
    ∧ ((process_job_pipeline (some ⟨1, "t"⟩) 2 [oracleIndexNegative] stEmpty).outcome
        = RunOutcome.finished
       ∧ (process_job_pipeline (some ⟨1, "t"⟩) 2 [oracleIndexNegative] stEmpty).store.matchRows = []
       ∧ (process_job_pipeline (some ⟨1, "t"⟩) 2 [oracleIndexNegative] stEmpty).store.outreach.map
            (fun r => r.candidate_id) = [2]) := by decide

/-- C1 amended: rank results with an out-of-range batch-relative index are
discarded only at the ranking-persistence step — there they produce no
persisted ranking, affect nothing, and cause no abort (removing such a
result from the stage response changes nothing). In the fan-out synthesis
sub-stage (score ≥ 75) they are NOT discarded: an index below -(batch
length) or at least the batch length raises `IndexError` and aborts the
batch (hence the run ends in `pipeline_error`), and a negative index within
python's wrap-around range selects the unrelated batch item it wraps to and
persists an artifact for it. -/
theorem C1_out_of_range_amended :
    (∀ job_id cids st (ms₁ ms₂ : List MatchRes) (bad : MatchRes),
        (bad.candidate_index < 0 ∨ (cids.length : Int) ≤ bad.candidate_index) →
        saveMatches job_id cids st (ms₁ ++ bad :: ms₂) = saveMatches job_id cids st (ms₁ ++ ms₂))
    ∧ (∀ job_id cids (cs : List Candidate) synth st (m : MatchRes) i rest,
        cs.length = cids.length →
        (m.candidate_index < -(cids.length : Int) ∨ (cids.length : Int) ≤ m.candidate_index) →
        fanOut job_id cids cs synth st (m :: rest) i
          = .error (st, "IndexError: list index out of range"))
    ∧ (∀ job_id cids (cs : List Candidate) synth st (m : MatchRes) i p,
        cs.length = cids.length →
        -(cids.length : Int) ≤ m.candidate_index → m.candidate_index < 0 →
        synth i = Except.ok p →
        fanOut job_id cids cs synth st [m] i
          = .ok (create_outreach st job_id
              (cids.getD ((cids.length : Int) + m.candidate_index).toNat 0)
              p.1 p.2 "generated").1) := by
  refine ⟨?_, ?_, ?_⟩
  · intro job_id cids st ms₁ ms₂ bad hbad
    induction ms₁ generalizing st with
    | nil =>
      show saveMatches job_id cids st (bad :: ms₂) = saveMatches job_id cids st ms₂
      simp only [saveMatches]
      rw [if_pos hbad]
    | cons m t ih =>
      simp only [List.cons_append, saveMatches]
      by_cases hm : m.candidate_index < 0 ∨ (cids.length : Int) ≤ m.candidate_index
      · rw [if_pos hm, if_pos hm]
        exact ih _
      · rw [if_neg hm, if_neg hm]
        exact ih _
  · intro job_id cids cs synth st m i rest hcl hbound
    simp only [fanOut]
    rw [pyIndex_eq_none _ _ hbound]
  · intro job_id cids cs synth st m i p hcl h1 h2 hsyn
    have hn : (0 : Int) ≤ (cids.length : Int) + m.candidate_index := by omega
    have hlt : ((cids.length : Int) + m.candidate_index).toNat < cids.length := by omega
    have hlt' : ((cs.length : Int) + m.candidate_index).toNat < cs.length := by omega
    have hcids : pyIndex cids m.candidate_index
        = some (cids.getD ((cids.length : Int) + m.candidate_index).toNat 0) := by
      rw [pyIndex_neg _ _ h1 h2, List.get?_eq_get hlt, List.getD_eq_get?, List.get?_eq_get hlt]
      rfl
    have hcs : pyIndex cs m.candidate_index
        = some (cs.get ⟨((cs.length : Int) + m.candidate_index).toNat, hlt'⟩) := by
      rw [pyIndex_neg _ _ (by omega) h2, List.get?_eq_get hlt']
    simp only [fanOut]
    rw [hcids, hcs, hsyn]

/-- Witness for C1 amended: each conjunct at a concrete batch of length 2. -/
theorem C1_out_of_range_amended_witness :
    saveMatches 1 [10, 11] stEmpty [sampleMatch 5 80] = saveMatches 1 [10, 11] stEmpty []
    ∧ fanOut 1 [10, 11] [sampleCandidate "a", sampleCandidate "b"]
        (fun _ => Except.ok ("S", "B")) stEmpty [sampleMatch 2 80] 0
        = .error (stEmpty, "IndexError: list index out of range")
    ∧ fanOut 1 [10, 11] [sampleCandidate "a", sampleCandidate "b"]
        (fun _ => Except.ok ("S", "B")) stEmpty [sampleMatch (-1) 80] 0
        = .ok (create_outreach stEmpty 1 11 "S" "B" "generated").1 :=
  ⟨C1_out_of_range_amended.1 1 [10, 11] stEmpty [] [] (sampleMatch 5 80) (by decide),
   C1_out_of_range_amended.2.1 1 [10, 11] [sampleCandidate "a", sampleCandidate "b"]
     (fun _ => Except.ok ("S", "B")) stEmpty (sampleMatch 2 80) 0 [] (by decide) (by decide),
   C1_out_of_range_amended.2.2 1 [10, 11] [sampleCandidate "a", sampleCandidate "b"]
     (fun _ => Except.ok ("S", "B")) stEmpty (sampleMatch (-1) 80) 0 ("S", "B")
     (by decide) (by decide) (by decide) rfl⟩

/-! ### C8: accept is idempotent on artifact content -/

theorem get_candidate_update_status (st : Store) (cid cid' : Nat) (s' : String) :
    get_candidate (update_candidate_status st cid' s') cid
      = (get_candidate st cid).map
          (fun c => if c.id == cid' then { c with status := s' } else c) := by
  unfold get_candidate update_candidate_status
  exact find?_map_invariant _ _ (fun a => by cases ha : a.id == cid' <;> simp [ha]) _

theorem get_candidate_update_outreach_status (st : Store) (oid : Nat) (stat : String)
    (err : Option String) (cid : Nat) :
    get_candidate (update_outreach_status st oid stat err) cid = get_candidate st cid := rfl

theorem get_candidate_create_outreach (st : Store) (j c : Nat) (s b d : String) (cid : Nat) :
    get_candidate (create_outreach st j c s b d).1 cid = get_candidate st cid := rfl

theorem get_outreach_by_cid_update_candidate (st : Store) (cid' : Nat) (s' : String) (c : Nat) :
    get_outreach_by_candidate_id (update_candidate_status st cid' s') c
      = get_outreach_by_candidate_id st c := rfl

theorem get_outreach_by_cid_update_status (st : Store) (oid : Nat) (stat : String)
    (err : Option String) (c : Nat) :
    get_outreach_by_candidate_id (update_outreach_status st oid stat err) c
      = (get_outreach_by_candidate_id st c).map
          (fun o => if o.id == oid then
            { o with delivery_status := stat, error_message := err } else o) := by
  unfold get_outreach_by_candidate_id update_outreach_status
  exact find?_map_invariant _ _ (fun a => by cases ha : a.id == oid <;> simp [ha]) _

/-- C8: accepting the same candidate twice with no content edit in between
returns the same artifact subject and body (and the same artifact id): the
second call finds the artifact the first call created or promoted and does
not synthesize a new one (its pitch-writer oracle `p2` is irrelevant, even
a failing one). -/
theorem C8_accept_idempotent (st : Store) (cid : Nat)
    (p1 p2 : Except String (String × String)) (stat s b : String) (oid : Nat)
    (h : (accept_candidate st cid p1).2 = .ok stat s b oid) :
    (accept_candidate (accept_candidate st cid p1).1 cid p2).2
      = .ok "draft_retrieved" s b oid := by
  cases hc : get_candidate st cid with
  | none =>
    unfold accept_candidate at h
    rw [hc] at h
    exact absurd h (by simp)
  | some cand =>
    unfold accept_candidate at h ⊢
    rw [hc] at h ⊢
    dsimp only at h ⊢
    cases hx : get_outreach_by_candidate_id (update_candidate_status st cid "accepted") cid with
    | some ex =>
      rw [hx] at h
      dsimp only at h ⊢
      injection h with h1 h2 h3 h4
      subst h2
      subst h3
      subst h4
      cases hgen : ex.delivery_status == "generated" with
      | true =>
        rw [if_pos rfl]
        have hcand2 : get_candidate
            (update_outreach_status (update_candidate_status st cid "accepted") ex.id "draft" none)
            cid = some (if cand.id == cid then { cand with status := "accepted" } else cand) := by
          rw [get_candidate_update_outreach_status, get_candidate_update_status, hc]
          rfl
        simp [hcand2, get_outreach_by_cid_update_candidate,
          get_outreach_by_cid_update_status, hx]
      | false =>
        rw [if_neg (by simp)]
        have hcand2 : get_candidate (update_candidate_status st cid "accepted") cid
            = some (if cand.id == cid then { cand with status := "accepted" } else cand) := by
          rw [get_candidate_update_status, hc]
          rfl
        simp [hcand2, get_outreach_by_cid_update_candidate, hx, hgen]
    | none =>
      rw [hx] at h
      dsimp only at h ⊢
      cases hm : (update_candidate_status st cid "accepted").matchRows.find?
          (fun m => m.candidate_id == cid) with
      | none =>
        rw [hm] at h
        exact absurd h (by simp)
      | some mr =>
        rw [hm] at h
        dsimp only at h ⊢
        cases p1 with
        | error e =>
          exact absurd h (by simp)
        | ok pitch =>
          dsimp only at h ⊢
          injection h with h1 h2 h3 h4
          subst h2
          subst h3
          subst h4
          have hcand2 : get_candidate
              (create_outreach (update_candidate_status st cid "accepted") cand.job_id cid
                pitch.1 pitch.2 "draft").1 cid
              = some (if cand.id == cid then { cand with status := "accepted" } else cand) := by
            rw [get_candidate_create_outreach, get_candidate_update_status, hc]
            rfl
          have hx' : List.find? (fun o => o.candidate_id == cid)
              (update_candidate_status st cid "accepted").outreach = none := hx
          have hfound : get_outreach_by_candidate_id
              (create_outreach (update_candidate_status st cid "accepted") cand.job_id cid
                pitch.1 pitch.2 "draft").1 cid
              = some ⟨(update_candidate_status st cid "accepted").nextOutreachId,
                  cand.job_id, cid, pitch.1, pitch.2, "draft", none⟩ := by
            unfold get_outreach_by_candidate_id create_outreach
            dsimp only
            rw [find?_append_none _ _ _ hx', List.find?_cons_of_pos _ (by simp)]
          simp [hcand2, get_outreach_by_cid_update_candidate, hfound]
          rfl

/-- Witness for C8: accepting candidate 1 of `stOnePending` twice returns
the same pitch both times, even though the second call's pitch oracle would
fail. -/
theorem C8_accept_idempotent_witness :
    (accept_candidate (accept_candidate stOnePending 1 (Except.ok ("S", "B"))).1 1
        (Except.error "no second synthesis")).2
      = .ok "draft_retrieved" "S" "B" 1 :=
  C8_accept_idempotent stOnePending 1 (Except.ok ("S", "B"))
    (Except.error "no second synthesis") "draft_created" "S" "B" 1 (by decide)

/-! ### C9: reject response shape -/

/-- C9 counterexample: rejecting candidate 1 of `stTwoPending` does return
the next pending item (candidate 2), but NOT in the same shape as the GET
candidates endpoint: the candidate object lacks the `linkedin_url`,
`company_website` and `status` keys and the match object lacks the `id` key. -/
theorem C9_reject_shape_counterexample :
    (reject_candidate stTwoPending 1).2
        = .ok (some (candidateRejectObj candRow2, matchRejectObj matchRow2))
    ∧ (get_next_candidate_endpoint (reject_candidate stTwoPending 1).1 1).candidate
        = some (candidateFullObj candRow2)
    ∧ (candidateRejectObj candRow2).map Prod.fst ≠ (candidateFullObj candRow2).map Prod.fst
    ∧ (matchRejectObj matchRow2).map Prod.fst ≠ (matchFullObj matchRow2).map Prod.fst := by
  decide

/-- C9 amended: rejecting an existing candidate transitions its status to
`rejected` and the response carries either null or exactly the item the GET
candidates endpoint would pick next for the same job, but projected to a
reduced shape: the candidate object without `linkedin_url`,
`company_website` and `status`, and the ranking object without its `id`
(and without the aggregate stats). -/
theorem C9_reject_amended (st : Store) (cid : Nat) (cand : CandidateRow)
    (h : get_candidate st cid = some cand) :
    (∃ c', get_candidate (reject_candidate st cid).1 cid = some c' ∧ c'.status = "rejected")
    ∧ (reject_candidate st cid).2
        = .ok ((get_next_candidate (reject_candidate st cid).1 cand.job_id).map
            (fun cm => (candidateRejectObj cm.1, matchRejectObj cm.2)))
    ∧ get_next_candidate_endpoint (reject_candidate st cid).1 cand.job_id
        = ⟨(get_next_candidate (reject_candidate st cid).1 cand.job_id).map
             (fun cm => candidateFullObj cm.1),
           (get_next_candidate (reject_candidate st cid).1 cand.job_id).map
             (fun cm => matchFullObj cm.2)⟩
    ∧ (∀ (c : CandidateRow) (m : MatchRow),
        candidateRejectObj c = (candidateFullObj c).filter
          (fun kv => !(kv.1 == "linkedin_url" || kv.1 == "company_website" || kv.1 == "status"))
        ∧ matchRejectObj m = (matchFullObj m).filter (fun kv => !(kv.1 == "id"))) := by
  have h' : List.find? (fun c => c.id == cid) st.candidates = some cand := h
  have hpc : (cand.id == cid) = true := by simpa using List.find?_some h'
  have heqc : cand.id = cid := by simpa using hpc
  unfold reject_candidate
  rw [h]
  dsimp only
  cases hn : get_next_candidate (update_candidate_status st cid "rejected") cand.job_id with
  | none =>
    refine ⟨⟨{ cand with status := "rejected" }, ?_, rfl⟩, ?_, ?_, ?_⟩
    · rw [get_candidate_update_status, h]
      simp [heqc]
    · rw [hn]
      rfl
    · unfold get_next_candidate_endpoint
      rw [hn]
      rfl
    · intro c m
      exact ⟨rfl, rfl⟩
  | some cm =>
    refine ⟨⟨{ cand with status := "rejected" }, ?_, rfl⟩, ?_, ?_, ?_⟩
    · rw [get_candidate_update_status, h]
      simp [heqc]
    · rw [hn]
      rfl
    · unfold get_next_candidate_endpoint
      rw [hn]
      rfl
    · intro c m
      exact ⟨rfl, rfl⟩

/-- Witness for C9 amended at `stTwoPending`. -/
theorem C9_reject_amended_witness :
    (∃ c', get_candidate (reject_candidate stTwoPending 1).1 1 = some c'
        ∧ c'.status = "rejected")
    ∧ (reject_candidate stTwoPending 1).2
        = .ok ((get_next_candidate (reject_candidate stTwoPending 1).1 1).map
            (fun cm => (candidateRejectObj cm.1, matchRejectObj cm.2))) :=
  ⟨(C9_reject_amended stTwoPending 1
      ⟨1, 1, "a", "a@example.com", ["python"], "engineer", "acme", 5, "remote", "summary",
       none, none, "pending"⟩ (by decide)).1,
   (C9_reject_amended stTwoPending 1
      ⟨1, 1, "a", "a@example.com", ["python"], "engineer", "acme", 5, "remote", "summary",
       none, none, "pending"⟩ (by decide)).2.1⟩

/-! ### C5: per-item isolation of synthesis failures -/

theorem pyIndex_nonneg_some {α : Type} (xs : List α) (i : Int)
    (h0 : 0 ≤ i) (hl : i < (xs.length : Int)) :
    ∃ v, pyIndex xs i = some v := by
  unfold pyIndex
  rw [if_pos h0]
  exact ⟨_, List.get?_eq_get (by omega)⟩

theorem saveCandidates_ids_length (job_id : Nat) :
    ∀ (cs : List Candidate) (st : Store),
      (saveCandidates job_id st cs).2.length = cs.length := by
  intro cs
  induction cs with
  | nil => intro st; rfl
  | cons c t ih =>
    intro st
    simp only [saveCandidates, List.length_cons]
    rw [ih]

theorem saveCandidates_outreach (job_id : Nat) :
    ∀ (cs : List Candidate) (st : Store),
      (saveCandidates job_id st cs).1.outreach = st.outreach := by
  intro cs
  induction cs with
  | nil => intro st; rfl
  | cons c t ih =>
    intro st
    simp only [saveCandidates]
    rw [ih]
    rfl

theorem saveMatches_outreach (job_id : Nat) (cids : List Nat) :
    ∀ (ms : List MatchRes) (st : Store),
      (saveMatches job_id cids st ms).outreach = st.outreach := by
  intro ms
  induction ms with
  | nil => intro st; rfl
  | cons m t ih =>
    intro st
    simp only [saveMatches]
    by_cases hm : m.candidate_index < 0 ∨ (cids.length : Int) ≤ m.candidate_index
    · rw [if_pos hm, ih]
    · rw [if_neg hm, ih]
      rfl

theorem countSynthOk_add_countSynthErr (synth : Nat → Except String (String × String)) :
    ∀ (n i : Nat), countSynthOk synth i n + countSynthErr synth i n = n := by
  intro n
  induction n with
  | zero => intro i; rfl
  | succ k ih =>
    intro i
    simp only [countSynthOk, countSynthErr]
    have hik := ih (i + 1)
    cases hs : (synth i).toBool <;> simp [hs] <;> omega

theorem fanOut_all_valid (job_id : Nat) (cids : List Nat) (cs : List Candidate)
    (synth : Nat → Except String (String × String)) (hcl : cs.length = cids.length) :
    ∀ (tops : List MatchRes) (st : Store) (i : Nat),
      (∀ m ∈ tops, 0 ≤ m.candidate_index ∧ m.candidate_index < (cids.length : Int)) →
      ∃ st', fanOut job_id cids cs synth st tops i = .ok st'
        ∧ (∃ new, st'.outreach = st.outreach ++ new
            ∧ new.length = countSynthOk synth i tops.length
            ∧ ∀ row ∈ new, row.delivery_status = "generated")
        ∧ st'.candidates = st.candidates
        ∧ st'.matchRows = st.matchRows := by
  intro tops
  induction tops with
  | nil =>
    intro st i _
    exact ⟨st, rfl, ⟨[], by simp, rfl, by simp⟩, rfl, rfl⟩
  | cons m rest ih =>
    intro st i hvalid
    have hm := hvalid m (by simp)
    obtain ⟨v, hv⟩ := pyIndex_nonneg_some cids m.candidate_index hm.1 hm.2
    obtain ⟨w, hw⟩ := pyIndex_nonneg_some cs m.candidate_index hm.1 (by omega)
    have hrest := fun st' => ih st' (i + 1) (fun x hx => hvalid x (by simp [hx]))
    simp only [fanOut]
    rw [hv, hw]
    cases hs : synth i with
    | ok pitch =>
      obtain ⟨st', hfan, ⟨new, hnew, hlen, hgen⟩, hcand, hmr⟩ :=
        hrest (create_outreach st job_id v pitch.1 pitch.2 "generated").1
      refine ⟨st', hfan,
        ⟨⟨st.nextOutreachId, job_id, v, pitch.1, pitch.2, "generated", none⟩ :: new,
         ?_, ?_, ?_⟩, ?_, ?_⟩
      · rw [hnew]
        show st.outreach ++ [⟨st.nextOutreachId, job_id, v, pitch.1, pitch.2, "generated", none⟩]
            ++ new = _
        simp
      · have hok : (Except.ok pitch : Except String (String × String)).toBool = true := rfl
        simp only [List.length_cons, countSynthOk, hs, hok, if_pos, hlen]
        omega
      · intro row hrow
        rcases List.mem_cons.mp hrow with hrow | hrow
        · rw [hrow]
        · exact hgen row hrow
      · rw [hcand]
        rfl
      · rw [hmr]
        rfl
    | error e =>
      obtain ⟨st', hfan, ⟨new, hnew, hlen, hgen⟩, hcand, hmr⟩ := hrest st
      refine ⟨st', hfan, ⟨new, hnew, ?_, hgen⟩, hcand, hmr⟩
      have herr : (Except.error e : Except String (String × String)).toBool = false := rfl
      simp [countSynthOk, hs, herr, hlen]

/-- C5: within one batch whose rank stage selected `m ≥ 1` top-scoring items
(all with valid batch indices), synthesis failures are isolated per item: if
`k` of the `m` joined synthesis calls fail, the batch still returns
successfully (no abort of batch or run), the `agent_complete` event for the
synthesize (pitch_writer) stage is still emitted, and exactly `m - k`
artifacts are persisted, all with `delivery_status = "generated"`. The
`asyncio.gather` join is modelled sequentially: every call's outcome is
consumed before the batch result is produced. -/
theorem C5_synthesis_failures_isolated (job_id count processed : Nat) (o : BatchOracle)
    (st : Store) (cs : List Candidate) (ms : List MatchRes)
    (hg : o.gen = Except.ok cs) (hr : o.rank = Except.ok ms)
    (hidx : ∀ m ∈ ms.filter (fun m => 75 ≤ m.score),
        0 ≤ m.candidate_index ∧ m.candidate_index < (cs.length : Int))
    (hne : (ms.filter (fun m => 75 ≤ m.score)).length ≠ 0) :
    (runOneBatch job_id count processed o st).2.2 = Except.ok (processed + cs.length)
    ∧ Event.agent_complete "pitch_writer" (processed + cs.length) count
        ∈ (runOneBatch job_id count processed o st).2.1
    ∧ ∃ new, (runOneBatch job_id count processed o st).1.outreach = st.outreach ++ new
        ∧ new.length = (ms.filter (fun m => 75 ≤ m.score)).length
            - countSynthErr o.synth 0 (ms.filter (fun m => 75 ≤ m.score)).length
        ∧ ∀ row ∈ new, row.delivery_status = "generated" := by
  have hlen_ids := saveCandidates_ids_length job_id cs st
  have hidx2 : ∀ m ∈ ms.filter (fun m => 75 ≤ m.score),
      0 ≤ m.candidate_index
        ∧ m.candidate_index < (((saveCandidates job_id st cs).2.length : Nat) : Int) := by
    intro m hm
    rw [hlen_ids]
    exact hidx m hm
  obtain ⟨st3, hfan, ⟨new, hnew, hlenn, hgenn⟩, hcand3, hmr3⟩ :=
    fanOut_all_valid job_id (saveCandidates job_id st cs).2 cs o.synth hlen_ids.symm
      (ms.filter (fun m => 75 ≤ m.score))
      (saveMatches job_id (saveCandidates job_id st cs).2 (saveCandidates job_id st cs).1 ms)
      0 hidx2
  have hne' : ¬ ((ms.filter (fun m => 75 ≤ m.score)).isEmpty = true) := by
    intro hh
    refine hne ?_
    rw [List.isEmpty_iff.mp hh]
    rfl
  unfold runOneBatch
  rw [hg]
  dsimp only
  rw [hr]
  dsimp only
  rw [if_neg hne', hfan]
  dsimp only
  refine ⟨rfl, by simp, new, ?_, ?_, hgenn⟩
  · rw [hnew, saveMatches_outreach, saveCandidates_outreach]
  · rw [hlenn]
    have hsum := countSynthOk_add_countSynthErr o.synth
      (ms.filter (fun m => 75 ≤ m.score)).length 0
    omega

/-- Witness for C5: five selected top matches, the first three synthesis
calls fail, exactly two `generated` artifacts are persisted and the batch
completes. -/
theorem C5_synthesis_failures_isolated_witness :
    (runOneBatch 1 5 0 oracleThreeFailures stEmpty).2.2 = Except.ok 5
    ∧ Event.agent_complete "pitch_writer" 5 5
        ∈ (runOneBatch 1 5 0 oracleThreeFailures stEmpty).2.1
    ∧ ∃ new, (runOneBatch 1 5 0 oracleThreeFailures stEmpty).1.outreach
          = stEmpty.outreach ++ new
        ∧ new.length = 2
        ∧ ∀ row ∈ new, row.delivery_status = "generated" :=
  C5_synthesis_failures_isolated 1 5 0 oracleThreeFailures stEmpty
    [sampleCandidate "a", sampleCandidate "b", sampleCandidate "c",
     sampleCandidate "d", sampleCandidate "e"]
    [sampleMatch 0 90, sampleMatch 1 88, sampleMatch 2 86,
     sampleMatch 3 84, sampleMatch 4 82]
    rfl rfl (by decide) (by decide)

/-! ### C2: event discipline of a full run -/

theorem runOneBatch_events_agent (job_id count processed : Nat) (o : BatchOracle) (st : Store) :
    ∀ e ∈ (runOneBatch job_id count processed o st).2.1, isAgentEvent e = true := by
  unfold runOneBatch
  cases hg : o.gen with
  | error err =>
    dsimp only
    intro x hx
    fin_cases hx <;> rfl
  | ok cs =>
    dsimp only
    cases hr : o.rank with
    | error err =>
      dsimp only
      intro x hx
      fin_cases hx <;> rfl
    | ok ms =>
      dsimp only
      by_cases htop : (ms.filter (fun m => 75 ≤ m.score)).isEmpty = true
      · rw [if_pos htop]
        intro x hx
        fin_cases hx <;> rfl
      · rw [if_neg htop]
        cases hfo : fanOut job_id (saveCandidates job_id st cs).2 cs o.synth
            (saveMatches job_id (saveCandidates job_id st cs).2 (saveCandidates job_id st cs).1 ms)
            (ms.filter (fun m => 75 ≤ m.score)) 0 with
        | error se =>
          dsimp only
          intro x hx
          fin_cases hx <;> rfl
        | ok st3 =>
          dsimp only
          intro x hx
          fin_cases hx <;> rfl

theorem countP_zero_of_agent (p : Event → Bool)
    (hp : ∀ e, isAgentEvent e = true → p e = false) :
    ∀ evs : List Event, (∀ e ∈ evs, isAgentEvent e = true) → evs.countP p = 0 := by
  intro evs h
  rw [List.countP_eq_zero]
  intro a ha
  rw [hp a (h a ha)]
  exact Bool.false_ne_true

theorem agent_not_pipelineStart : ∀ e : Event, isAgentEvent e = true → isPipelineStart e = false := by
  intro e
  cases e <;> simp [isAgentEvent, isPipelineStart]

theorem agent_not_pipelineComplete : ∀ e : Event, isAgentEvent e = true →
    isPipelineComplete e = false := by
  intro e
  cases e <;> simp [isAgentEvent, isPipelineComplete]

theorem agent_not_pipelineError : ∀ e : Event, isAgentEvent e = true →
    isPipelineError e = false := by
  intro e
  cases e <;> simp [isAgentEvent, isPipelineError]

theorem countP_terminal_split : ∀ evs : List Event,
    evs.countP isTerminalEvent
      = evs.countP isPipelineComplete + evs.countP isPipelineError := by
  intro evs
  induction evs with
  | nil => rfl
  | cons e t ih =>
    simp only [List.countP_cons, ih]
    cases e <;> simp [isTerminalEvent, isPipelineComplete, isPipelineError] <;> omega

/-- A successfully completed batch iteration came from a successful generate
call, advanced the processed count by the generated batch's length, and
emitted at least one `agent_start` and one `agent_complete` of the
generate/rank stages. -/
theorem runOneBatch_ok_facts (job_id count processed : Nat) (o : BatchOracle) (st : Store)
    (st' : Store) (evs : List Event) (p' : Nat)
    (h : runOneBatch job_id count processed o st = (st', evs, Except.ok p')) :
    (∃ cs, o.gen = Except.ok cs ∧ p' = processed + cs.length)
    ∧ 1 ≤ evs.countP isGenRankStart
    ∧ 1 ≤ evs.countP isGenRankComplete := by
  unfold runOneBatch at h
  cases hg : o.gen with
  | error err =>
    rw [hg] at h
    dsimp only at h
    injection h with h1 h2
    injection h2 with h2 h3
    exact Except.noConfusion h3
  | ok cs =>
    rw [hg] at h
    dsimp only at h
    cases hr : o.rank with
    | error err =>
      rw [hr] at h
      dsimp only at h
      injection h with h1 h2
      injection h2 with h2 h3
      exact Except.noConfusion h3
    | ok ms =>
      rw [hr] at h
      dsimp only at h
      by_cases htop : (ms.filter (fun m => 75 ≤ m.score)).isEmpty = true
      · rw [if_pos htop] at h
        injection h with h1 h2
        injection h2 with h2 h3
        injection h3 with h3
        subst h2
        exact ⟨⟨cs, rfl, h3.symm⟩,
          by simp [List.countP_cons, isGenRankStart, isGenRankComplete],
          by simp [List.countP_cons, isGenRankStart, isGenRankComplete]⟩
      · rw [if_neg htop] at h
        cases hfo : fanOut job_id (saveCandidates job_id st cs).2 cs o.synth
            (saveMatches job_id (saveCandidates job_id st cs).2 (saveCandidates job_id st cs).1 ms)
            (ms.filter (fun m => 75 ≤ m.score)) 0 with
        | error se =>
          rw [hfo] at h
          dsimp only at h
          injection h with h1 h2
          injection h2 with h2 h3
          exact Except.noConfusion h3
        | ok st3 =>
          rw [hfo] at h
          dsimp only at h
          injection h with h1 h2
          injection h2 with h2 h3
          injection h3 with h3
          subst h2
          exact ⟨⟨cs, rfl, h3.symm⟩,
            by simp [List.countP_cons, isGenRankStart, isGenRankComplete],
            by simp [List.countP_cons, isGenRankStart, isGenRankComplete]⟩

/-- The batch loop emits no pipeline-level event except a single
`pipeline_complete` exactly when it finishes, and never yields the `noJob`
outcome. -/
theorem runBatches_event_counts (job_id count : Nat) :
    ∀ (oracles : List BatchOracle) (processed : Nat) (st : Store),
      (runBatches job_id count oracles processed st).events.countP isPipelineStart = 0
      ∧ (runBatches job_id count oracles processed st).events.countP isPipelineError = 0
      ∧ (runBatches job_id count oracles processed st).events.countP isPipelineComplete
          = (if (runBatches job_id count oracles processed st).outcome = RunOutcome.finished
             then 1 else 0)
      ∧ (runBatches job_id count oracles processed st).outcome ≠ RunOutcome.noJob := by
  intro oracles
  induction oracles with
  | nil =>
    intro processed st
    by_cases hp : processed < count
    · simp [runBatches, hp, isPipelineStart, isPipelineError, isPipelineComplete]
    · simp [runBatches, hp, List.countP_cons, isPipelineStart, isPipelineError,
        isPipelineComplete]
  | cons o rest ih =>
    intro processed st
    by_cases hp : processed < count
    · have hagent := runOneBatch_events_agent job_id count processed o st
      rcases hb : runOneBatch job_id count processed o st with ⟨st', evs, ex⟩
      rw [hb] at hagent
      simp only at hagent
      simp only [runBatches, if_pos hp, hb]
      cases ex with
      | error e =>
        dsimp only
        refine ⟨countP_zero_of_agent _ agent_not_pipelineStart _ hagent,
          countP_zero_of_agent _ agent_not_pipelineError _ hagent, ?_, by simp⟩
        rw [countP_zero_of_agent _ agent_not_pipelineComplete _ hagent]
        simp
      | ok p' =>
        dsimp only
        obtain ⟨ih1, ih2, ih3, ih4⟩ := ih p' st'
        refine ⟨?_, ?_, ?_, ih4⟩
        · rw [List.countP_append, ih1,
            countP_zero_of_agent _ agent_not_pipelineStart _ hagent]
        · rw [List.countP_append, ih2,
            countP_zero_of_agent _ agent_not_pipelineError _ hagent]
        · rw [List.countP_append, ih3,
            countP_zero_of_agent _ agent_not_pipelineComplete _ hagent, Nat.zero_add]
    · simp [runBatches, hp, List.countP_cons, isPipelineStart, isPipelineError,
        isPipelineComplete]

/-- A finished batch loop, under the adapter contract that each generate
call returns at most the requested 5 records, ran enough iterations: 5 times
the number of generate/rank `agent_start`s (and `agent_complete`s) covers
the remaining count. -/
theorem runBatches_pair_bound (job_id count : Nat) :
    ∀ (oracles : List BatchOracle) (processed : Nat) (st : Store),
      (∀ o ∈ oracles, ∀ l, o.gen = Except.ok l → l.length ≤ 5) →
      (runBatches job_id count oracles processed st).outcome = RunOutcome.finished →
      count ≤ processed
          + 5 * (runBatches job_id count oracles processed st).events.countP isGenRankComplete
      ∧ count ≤ processed
          + 5 * (runBatches job_id count oracles processed st).events.countP isGenRankStart := by
  intro oracles
  induction oracles with
  | nil =>
    intro processed st _ hfin
    by_cases hp : processed < count
    · simp [runBatches, hp] at hfin
    · constructor <;> omega
  | cons o rest ih =>
    intro processed st hgen hfin
    by_cases hp : processed < count
    · rcases hb : runOneBatch job_id count processed o st with ⟨st', evs, ex⟩
      rw [runBatches, if_pos hp, hb] at hfin ⊢
      cases ex with
      | error e =>
        exact absurd hfin (by simp)
      | ok p' =>
        dsimp only at hfin ⊢
        obtain ⟨⟨cs, hcs, hp'⟩, hstart, hcomplete⟩ :=
          runOneBatch_ok_facts job_id count processed o st st' evs p' hb
        have hlen : cs.length ≤ 5 := hgen o (by simp) cs hcs
        obtain ⟨ihc, ihs⟩ := ih p' st' (fun o' ho' l hl => hgen o' (by simp [ho']) l hl) hfin
        simp only [List.countP_append]
        constructor <;> omega
    · rw [runBatches, if_neg hp]
      constructor <;> omega

/-- C2: for every terminating run whose job exists (under the adapter
contract that a generate call returns at most the 5 requested records), the
run emits exactly one `pipeline_start` and exactly one terminal event —
`pipeline_complete` exactly when no uncaught error occurred, otherwise one
`pipeline_error`, never both — and a run that completes without error
emitted at least ⌈count/5⌉ `agent_start` and `agent_complete` events of the
generate/rank stages. -/
theorem C2_run_event_discipline (j : Job) (count : Nat) (oracles : List BatchOracle)
    (st : Store)
    (hgen : ∀ o ∈ oracles, ∀ l, o.gen = Except.ok l → l.length ≤ 5)
    (hterm : (process_job_pipeline (some j) count oracles st).outcome = RunOutcome.finished
        ∨ ∃ e, (process_job_pipeline (some j) count oracles st).outcome
            = RunOutcome.errored e) :
    (process_job_pipeline (some j) count oracles st).events.countP isPipelineStart = 1
    ∧ (process_job_pipeline (some j) count oracles st).events.countP isTerminalEvent = 1
    ∧ ((process_job_pipeline (some j) count oracles st).outcome = RunOutcome.finished →
        (process_job_pipeline (some j) count oracles st).events.countP isPipelineComplete = 1
        ∧ (process_job_pipeline (some j) count oracles st).events.countP isPipelineError = 0
        ∧ (count + 4) / 5
            ≤ (process_job_pipeline (some j) count oracles st).events.countP isGenRankStart
        ∧ (count + 4) / 5
            ≤ (process_job_pipeline (some j) count oracles st).events.countP isGenRankComplete)
    ∧ (∀ e, (process_job_pipeline (some j) count oracles st).outcome = RunOutcome.errored e →
        (process_job_pipeline (some j) count oracles st).events.countP isPipelineError = 1
        ∧ (process_job_pipeline (some j) count oracles st).events.countP
            isPipelineComplete = 0) := by
  obtain ⟨hc1, hc2, hc3, hc4⟩ := runBatches_event_counts j.id count oracles 0 st
  unfold process_job_pipeline at hterm ⊢
  dsimp only at hterm ⊢
  cases ho : (runBatches j.id count oracles 0 st).outcome with
  | finished =>
    rw [ho] at hc3
    dsimp only
    have hcomplete1 : (runBatches j.id count oracles 0 st).events.countP isPipelineComplete
        = 1 := by
      rw [hc3]
      rfl
    obtain ⟨hpc, hps⟩ := runBatches_pair_bound j.id count oracles 0 st hgen ho
    refine ⟨?_, ?_, ?_, ?_⟩
    · simp [List.countP_cons, isPipelineStart, hc1]
    · rw [countP_terminal_split]
      simp [List.countP_cons, isPipelineComplete, isPipelineError, hc1, hc2, hcomplete1]
    · intro _
      refine ⟨?_, ?_, ?_, ?_⟩
      · simp [List.countP_cons, isPipelineComplete, hcomplete1]
      · simp [List.countP_cons, isPipelineError, hc2]
      · have : (Event.pipeline_start j.id count :: (runBatches j.id count oracles 0 st).events).countP
            isGenRankStart = (runBatches j.id count oracles 0 st).events.countP isGenRankStart := by
          simp [List.countP_cons, isGenRankStart]
        rw [this]
        omega
      · have : (Event.pipeline_start j.id count :: (runBatches j.id count oracles 0 st).events).countP
            isGenRankComplete
            = (runBatches j.id count oracles 0 st).events.countP isGenRankComplete := by
          simp [List.countP_cons, isGenRankComplete]
        rw [this]
        omega
    · intro e he
      exact absurd he (by simp)
  | errored e =>
    rw [ho] at hc3
    dsimp only
    have hcomplete0 : (runBatches j.id count oracles 0 st).events.countP isPipelineComplete
        = 0 := by
      rw [hc3]
      rfl
    refine ⟨?_, ?_, ?_, ?_⟩
    · simp [List.countP_cons, List.countP_append, isPipelineStart, hc1]
    · rw [countP_terminal_split]
      simp [List.countP_cons, List.countP_append, isPipelineComplete, isPipelineError,
        hc1, hc2, hcomplete0]
    · intro hfin
      exact absurd hfin (by simp)
    · intro e' _
      constructor
      · simp [List.countP_cons, List.countP_append, isPipelineError, hc2]
      · simp [List.countP_cons, List.countP_append, isPipelineComplete, hcomplete0]
  | starved =>
    rw [ho] at hterm
    dsimp only at hterm
    rcases hterm with hterm | ⟨e, hterm⟩ <;> exact absurd hterm (by simp)
  | noJob =>
    exact absurd ho hc4

/-- Witness for C2 at a one-batch run of 5 records. -/
theorem C2_run_event_discipline_witness :
    (process_job_pipeline (some ⟨1, "t"⟩) 5 [oracleGood] stEmpty).events.countP
        isPipelineStart = 1
    ∧ (process_job_pipeline (some ⟨1, "t"⟩) 5 [oracleGood] stEmpty).events.countP
        isTerminalEvent = 1 := by
  have hgen : ∀ o ∈ [oracleGood], ∀ l, o.gen = Except.ok l → l.length ≤ 5 := by
    intro o ho l hl
    rw [List.mem_singleton.mp ho] at hl
    injection hl with hl
    rw [← hl]
    decide
  have hterm : (process_job_pipeline (some ⟨1, "t"⟩) 5 [oracleGood] stEmpty).outcome
        = RunOutcome.finished
      ∨ ∃ e, (process_job_pipeline (some ⟨1, "t"⟩) 5 [oracleGood] stEmpty).outcome
        = RunOutcome.errored e :=
    Or.inl (by decide)
  exact ⟨(C2_run_event_discipline ⟨1, "t"⟩ 5 [oracleGood] stEmpty hgen hterm).1,
    (C2_run_event_discipline ⟨1, "t"⟩ 5 [oracleGood] stEmpty hgen hterm).2.1⟩

/-! ### C7: batch schedule of a nominal 25-item run -/

/-- A batch iteration with a nominal oracle returns successfully and
advances the processed count by exactly 5. -/
theorem runOneBatch_good (job_id count processed : Nat) (o : BatchOracle) (st : Store)
    (hgood : GoodOracle o) :
    (runOneBatch job_id count processed o st).2.2 = Except.ok (processed + 5) := by
  obtain ⟨⟨cs, hg, hlen⟩, ⟨ms, hr, hvalid⟩⟩ := hgood
  by_cases htop : (ms.filter (fun m => 75 ≤ m.score)).isEmpty = true
  · unfold runOneBatch
    rw [hg]
    dsimp only
    rw [hr]
    dsimp only
    rw [if_pos htop, hlen]
  · have hlen_ids := saveCandidates_ids_length job_id cs st
    have hidx2 : ∀ m ∈ ms.filter (fun m => 75 ≤ m.score),
        0 ≤ m.candidate_index
          ∧ m.candidate_index < ((saveCandidates job_id st cs).2.length : Int) := by
      intro m hm
      have hmem := List.mem_filter.mp hm
      have hsc : 75 ≤ m.score := by simpa using hmem.2
      have hb := hvalid m hmem.1 hsc
      refine ⟨hb.1, ?_⟩
      rw [hlen_ids, hlen]
      have := hb.2
      omega
    obtain ⟨st3, hfan, -, -, -⟩ :=
      fanOut_all_valid job_id (saveCandidates job_id st cs).2 cs o.synth hlen_ids.symm
        (ms.filter (fun m => 75 ≤ m.score))
        (saveMatches job_id (saveCandidates job_id st cs).2 (saveCandidates job_id st cs).1 ms)
        0 hidx2
    unfold runOneBatch
    rw [hg]
    dsimp only
    rw [hr]
    dsimp only
    rw [if_neg htop, hfan]
    dsimp only
    rw [hlen]

/-- A batch loop fed exactly enough nominal oracles finishes and produces
the canonical trace: every iteration requests 5 and advances by 5. -/
theorem runBatches_good (job_id : Nat) :
    ∀ (oracles : List BatchOracle), (∀ o ∈ oracles, GoodOracle o) →
      ∀ (processed : Nat) (st : Store) (count : Nat),
        count = processed + 5 * oracles.length →
        (runBatches job_id count oracles processed st).outcome = RunOutcome.finished
        ∧ (runBatches job_id count oracles processed st).trace
            = goodTrace processed oracles.length := by
  intro oracles
  induction oracles with
  | nil =>
    intro _ processed st count hcount
    have hp : ¬ processed < count := by
      simp only [List.length_nil] at hcount
      omega
    simp [runBatches, hp, goodTrace]
  | cons o rest ih =>
    intro hgood processed st count hcount
    simp only [List.length_cons] at hcount
    have hp : processed < count := by omega
    have hob := runOneBatch_good job_id count processed o st (hgood o (by simp))
    rcases hb : runOneBatch job_id count processed o st with ⟨st', evs, ex⟩
    rw [hb] at hob
    dsimp only at hob
    subst hob
    rw [runBatches, if_pos hp, hb]
    dsimp only
    obtain ⟨ihfin, ihtr⟩ := ih (fun o' ho' => hgood o' (by simp [ho'])) (processed + 5) st'
      count (by omega)
    refine ⟨ihfin, ?_⟩
    rw [ihtr]
    have hmin : min 5 (count - processed) = 5 := by omega
    rw [hmin]
    rfl

/-- C7: a 25-item run in which every batch behaves nominally (the generate
stage returns exactly the 5 requested records and the rank stage returns
in-range results) runs exactly five iterations of size 5, with the
processed count strictly increasing through 5, 10, 15, 20, 25 and never
exceeding 25, and the run completes. -/
theorem C7_batch_schedule (j : Job) (oracles : List BatchOracle) (st : Store)
    (hlen : oracles.length = 5) (hgood : ∀ o ∈ oracles, GoodOracle o) :
    (process_job_pipeline (some j) 25 oracles st).outcome = RunOutcome.finished
    ∧ (process_job_pipeline (some j) 25 oracles st).trace
        = [(5, 5), (5, 10), (5, 15), (5, 20), (5, 25)]
    ∧ List.Chain' (fun a b => a.2 < b.2)
        (process_job_pipeline (some j) 25 oracles st).trace
    ∧ ∀ p ∈ (process_job_pipeline (some j) 25 oracles st).trace, p.2 ≤ 25 := by
  obtain ⟨hfin, htr⟩ := runBatches_good j.id oracles hgood 0 st 25 (by rw [hlen])
  rw [hlen] at htr
  unfold process_job_pipeline
  dsimp only
  rw [hfin]
  dsimp only
  rw [htr]
  rw [show goodTrace 0 5 = [(5, 5), (5, 10), (5, 15), (5, 20), (5, 25)] from rfl]
  exact ⟨rfl, rfl, by simp [List.chain'_cons, List.chain'_singleton], by decide⟩

theorem goodOracle_good : GoodOracle oracleGood :=
  ⟨⟨_, rfl, rfl⟩, ⟨_, rfl, by decide⟩⟩

/-- Witness for C7: five nominal batches yield the 5,5,5,5,5 schedule. -/
theorem C7_batch_schedule_witness :
    (process_job_pipeline (some ⟨1, "t"⟩) 25 (List.replicate 5 oracleGood) stEmpty).trace
      = [(5, 5), (5, 10), (5, 15), (5, 20), (5, 25)] :=
  (C7_batch_schedule ⟨1, "t"⟩ (List.replicate 5 oracleGood) stEmpty rfl
    (fun o ho => by
      rw [List.eq_of_mem_replicate ho]
      exact goodOracle_good)).2.1

end JobGoblin
